import Mathlib

/-!
Verification of `gtsam_unstable/slam/MagPoseFactor.h` (class `MagPoseFactor<POSE>`).

The factor is shallowly embedded over an abstract pose/rotation interface, mirroring the
C++ template parameter `POSE`: a pose is a pair of a rotation (type `Rot`) and a
translation (type `POSE::Translation`, a vector of dimension `MeasDim`), and the rotation
library primitives (`unrotate` with its rotation Jacobian, composition `operator*`, and the
value-independent `rotationInterval`) are fields of a `PoseOps` record, exactly the
operations the header consumes.  Vectors are `Fin MeasDim → ℝ`; doubles are modelled as
real numbers.
-/

/-- Euclidean norm of a vector, the quantity used by Eigen's `v.normalized()`. -/
noncomputable def euclidNorm {m : ℕ} (v : Fin m → ℝ) : ℝ :=
  Real.sqrt (∑ i, v i ^ 2)

/-- Modelled from the spec: Eigen's `direction.normalized()` (not under `src/`), the
vector divided componentwise by its Euclidean norm. -/
noncomputable def normalized {m : ℕ} (v : Fin m → ℝ) : Fin m → ℝ :=
  fun i => v i / euclidNorm v

/-- Modelled from the spec: the state of the base class `NoiseModelFactor1<POSE>` that
`MagPoseFactor` interacts with (not under `src/`): the single variable key and an opaque
noise model, represented here by an identifier. -/
structure BaseFactor where
  key : ℕ
  noise : ℕ

/-- Modelled from the spec: `Base::equals` (not under `src/`) — same variable key and
compatible noise model. -/
def baseEquals (a b : BaseFactor) : Prop :=
  a.key = b.key ∧ a.noise = b.noise

/-- Modelled from the spec: `gtsam::equal_with_abs_tol` (not under `src/`) — the two
vectors agree componentwise within the absolute tolerance. -/
def equalWithAbsTol {m : ℕ} (a b : Fin m → ℝ) (tol : ℝ) : Prop :=
  ∀ i, |a i - b i| ≤ tol

/-- A pose value: rotation together with translation (`POSE::Translation`, the type
`Point` of the header, which also carries the measurement). -/
abbrev Pose (Rot : Type) (MeasDim : ℕ) := Rot × (Fin MeasDim → ℝ)

/-- Modelled from the spec: the pose/rotation library interface consumed by the factor
(`Rot::unrotate` with its rotation Jacobian, rotation composition `operator*`, and
`POSE::rotationInterval()`, which in gtsam is value-independent for each pose type). -/
structure PoseOps (Rot : Type) (MeasDim PoseDim RotDim : ℕ) where
  comp : Rot → Rot → Rot
  unrotate : Rot → (Fin MeasDim → ℝ) → (Fin MeasDim → ℝ)
  unrotateH : Rot → (Fin MeasDim → ℝ) → Matrix (Fin MeasDim) (Fin RotDim) ℝ
  rotationInterval : ℕ × ℕ

/-- The state of `MagPoseFactor<POSE>`: base-factor state, the measured magnetometer
reading `measured_`, the local magnetic field `nM_`, the bias `bias_`, and the optional
sensor-in-body pose `body_P_sensor_`. -/
structure MagPoseFactor (Rot : Type) (MeasDim : ℕ) where
  base : BaseFactor
  measured_ : Fin MeasDim → ℝ
  nM_ : Fin MeasDim → ℝ
  bias_ : Fin MeasDim → ℝ
  body_P_sensor_ : Option (Pose Rot MeasDim)

/-- The constructor of `MagPoseFactor`: stores `measured`, `scale * direction.normalized()`,
`bias` and the optional sensor mount, and forwards key and noise model to the base. -/
noncomputable def mkMagPoseFactor {Rot : Type} {MeasDim : ℕ} (pose_key : ℕ)
    (measured : Fin MeasDim → ℝ) (scale : ℝ) (direction : Fin MeasDim → ℝ)
    (bias : Fin MeasDim → ℝ) (model : ℕ) (body_P_sensor : Option (Pose Rot MeasDim)) :
    MagPoseFactor Rot MeasDim :=
  { base := { key := pose_key, noise := model }
    measured_ := measured
    nM_ := scale • normalized direction
    bias_ := bias
    body_P_sensor_ := body_P_sensor }

/-- `MagPoseFactor::evaluateError`.  Returns the error vector and, when the optional
Jacobian slot is supplied (`wantH = true`), the `MeasDim × PoseDim` Jacobian: a zero
matrix whose columns `[rot0, rot0 + RotDim)` hold the rotation Jacobian `H_rot` produced
by `unrotate`, where `rot0 = nPb.rotationInterval().first`. -/
noncomputable def evaluateError {Rot : Type} {MeasDim PoseDim RotDim : ℕ}
    (ops : PoseOps Rot MeasDim PoseDim RotDim) (f : MagPoseFactor Rot MeasDim)
    (nPb : Pose Rot MeasDim) (wantH : Bool) :
    (Fin MeasDim → ℝ) × Option (Matrix (Fin MeasDim) (Fin PoseDim) ℝ) :=
  let nRs : Rot :=
    match f.body_P_sensor_ with
    | some bPs => ops.comp nPb.1 bPs.1
    | none => nPb.1
  let H_rot : Matrix (Fin MeasDim) (Fin RotDim) ℝ := ops.unrotateH nRs f.nM_
  let hx : Fin MeasDim → ℝ := ops.unrotate nRs f.nM_ + f.bias_
  let H : Option (Matrix (Fin MeasDim) (Fin PoseDim) ℝ) :=
    if wantH then
      some (Matrix.of fun i j =>
        let rot0 := ops.rotationInterval.1
        if h : rot0 ≤ (j : ℕ) ∧ (j : ℕ) < rot0 + RotDim then
          H_rot i ⟨(j : ℕ) - rot0, by omega⟩
        else 0)
    else none
  (hx - f.measured_, H)

/-- The `NonlinearFactor` base-class view used by `equals`' `dynamic_cast` guard:
either a `MagPoseFactor<POSE>` for this `POSE` (`mag`), or any other factor object
(`other`), for which the `dynamic_cast<const This*>` yields `nullptr`. -/
inductive NonlinearFactor (Rot : Type) (MeasDim : ℕ) where
  | mag : MagPoseFactor Rot MeasDim → NonlinearFactor Rot MeasDim
  | other : ℕ → NonlinearFactor Rot MeasDim

/-- `MagPoseFactor::equals`: the `dynamic_cast` succeeds, the bases are equal, and
`measured_`, `nM_`, `bias_` agree within the absolute tolerance.  `body_P_sensor_`
is not compared. -/
def MagPoseFactor.equals {Rot : Type} {MeasDim : ℕ} (f : MagPoseFactor Rot MeasDim)
    (expected : NonlinearFactor Rot MeasDim) (tol : ℝ) : Prop :=
  match expected with
  | .mag e =>
      baseEquals f.base e.base ∧
      equalWithAbsTol f.measured_ e.measured_ tol ∧
      equalWithAbsTol f.nM_ e.nM_ tol ∧
      equalWithAbsTol f.bias_ e.bias_ tol
  | .other _ => False

/-- `MagPoseFactor::clone`: a deep copy of this factor, returned as a `NonlinearFactor`
pointer. -/
def MagPoseFactor.clone {Rot : Type} {MeasDim : ℕ} (f : MagPoseFactor Rot MeasDim) :
    NonlinearFactor Rot MeasDim :=
  .mag f

/-- Spec formula (§4.1 step 1): the navigation-to-sensor rotation `R` — the pose's
rotation composed with the mount's rotation when a mount is present, the pose's rotation
alone otherwise. -/
def navRsensor {Rot : Type} {MeasDim PoseDim RotDim : ℕ}
    (ops : PoseOps Rot MeasDim PoseDim RotDim) (f : MagPoseFactor Rot MeasDim)
    (nPb : Pose Rot MeasDim) : Rot :=
  match f.body_P_sensor_ with
  | some bPs => ops.comp nPb.1 bPs.1
  | none => nPb.1

/-! ### A concrete planar instance (a `Rot2`-style rotation given by cosine and sine),
used to exercise the theorems on explicit inputs. -/

/-- Composition of planar rotations represented as (cos, sin) pairs. -/
noncomputable def rot2Comp (a b : ℝ × ℝ) : ℝ × ℝ :=
  (a.1 * b.1 - a.2 * b.2, a.2 * b.1 + a.1 * b.2)

/-- `Rot2::unrotate`: apply the inverse planar rotation to a 2-vector. -/
noncomputable def rot2Unrotate (R : ℝ × ℝ) (v : Fin 2 → ℝ) : Fin 2 → ℝ :=
  ![R.1 * v 0 + R.2 * v 1, -R.2 * v 0 + R.1 * v 1]

/-- Jacobian of `rot2Unrotate` with respect to the rotation angle. -/
noncomputable def rot2UnrotateH (R : ℝ × ℝ) (v : Fin 2 → ℝ) : Matrix (Fin 2) (Fin 1) ℝ :=
  !![-R.2 * v 0 + R.1 * v 1; -(R.1 * v 0 + R.2 * v 1)]

/-- The planar pose interface: `PoseDim = 3`, `RotDim = 1`, and the rotation parameter
sits at column 2 of the tangent layout, as for `gtsam::Pose2`. -/
noncomputable def pose2Ops : PoseOps (ℝ × ℝ) 2 3 1 :=
  { comp := rot2Comp
    unrotate := rot2Unrotate
    unrotateH := rot2UnrotateH
    rotationInterval := (2, 2) }

/-- A concrete measurement: the local field `1 • normalized (1, 0)` seen from the
identity rotation. -/
noncomputable def m0 : Fin 2 → ℝ :=
  rot2Unrotate (1, 0) ((1 : ℝ) • normalized ![1, 0])

/-- A concrete factor without a sensor mount. -/
noncomputable def f0 : MagPoseFactor (ℝ × ℝ) 2 :=
  mkMagPoseFactor 7 m0 1 ![1, 0] 0 3 none

/-- A concrete factor with a sensor mount rotated 90 degrees. -/
noncomputable def f1 : MagPoseFactor (ℝ × ℝ) 2 :=
  mkMagPoseFactor 7 m0 1 ![1, 0] 0 3 (some ((0, 1), ![0, 0]))

/-- The Jacobian returned by `evaluateError` on `f0` at the identity pose. -/
noncomputable def M0 : Matrix (Fin 2) (Fin 3) ℝ :=
  ((evaluateError pose2Ops f0 ((1, 0), ![0, 0]) true).2).getD 0

/-! ### Claims -/

/-- C1: for every pose `nPb`, `evaluateError` returns the residual `h - measured`, where
the predicted measurement `h` equals `unrotate(R, localField) + bias` with `R` the
navigation-to-sensor rotation; the ordering is predicted minus observed. -/
theorem evaluateError_residual {Rot : Type} {MeasDim PoseDim RotDim : ℕ}
    (ops : PoseOps Rot MeasDim PoseDim RotDim) (f : MagPoseFactor Rot MeasDim)
    (nPb : Pose Rot MeasDim) (wantH : Bool) :
    (evaluateError ops f nPb wantH).1 =
      ops.unrotate (navRsensor ops f nPb) f.nM_ + f.bias_ - f.measured_ := by
  rcases f with ⟨b, m, nM, bi, bps⟩
  cases bps <;> rfl

/-- C2: for every pose, when the Jacobian is requested, `evaluateError` produces the
`MeasDim × PoseDim` matrix that is zero everywhere except that the rotation Jacobian from
`unrotate` is copied into the contiguous columns `[rot0, rot0 + RotDim)` starting at the
pose's `rotationInterval().first`. -/
theorem evaluateError_jacobian {Rot : Type} {MeasDim PoseDim RotDim : ℕ}
    (ops : PoseOps Rot MeasDim PoseDim RotDim) (f : MagPoseFactor Rot MeasDim)
    (nPb : Pose Rot MeasDim) :
    (evaluateError ops f nPb true).2 =
      some (Matrix.of fun i (j : Fin PoseDim) =>
        if h : ops.rotationInterval.1 ≤ (j : ℕ) ∧
            (j : ℕ) < ops.rotationInterval.1 + RotDim then
          ops.unrotateH (navRsensor ops f nPb) f.nM_ i
            ⟨(j : ℕ) - ops.rotationInterval.1, by omega⟩
        else 0) := by
  rcases f with ⟨b, m, nM, bi, bps⟩
  cases bps <;> rfl

/-- C3: the rotation used by `evaluateError` is `nPb.rotation() * body_P_sensor.rotation()`
when a sensor mount is present, and `nPb.rotation()` alone when it is absent. -/
theorem evaluateError_rotation_choice {Rot : Type} {MeasDim PoseDim RotDim : ℕ}
    (ops : PoseOps Rot MeasDim PoseDim RotDim) (f : MagPoseFactor Rot MeasDim)
    (nPb : Pose Rot MeasDim) (wantH : Bool) (bPs : Pose Rot MeasDim) :
    (f.body_P_sensor_ = some bPs →
      (evaluateError ops f nPb wantH).1 =
        ops.unrotate (ops.comp nPb.1 bPs.1) f.nM_ + f.bias_ - f.measured_) ∧
    (f.body_P_sensor_ = none →
      (evaluateError ops f nPb wantH).1 =
        ops.unrotate nPb.1 f.nM_ + f.bias_ - f.measured_) := by
  rcases f with ⟨b, m, nM, bi, bps⟩
  constructor
  · intro h
    cases bps with
    | none => cases h
    | some s => cases h; rfl
  · intro h
    cases bps with
    | none => rfl
    | some s => cases h

/-- C4: `evaluateError` returns identical results (residual and Jacobian) for two poses
sharing the same rotation but differing in translation, and the Jacobian columns outside
the `rotationInterval` column range — in particular the translation columns — are zero. -/
theorem evaluateError_translation_inv {Rot : Type} {MeasDim PoseDim RotDim : ℕ}
    (ops : PoseOps Rot MeasDim PoseDim RotDim) (f : MagPoseFactor Rot MeasDim)
    (r : Rot) (t1 t2 : Fin MeasDim → ℝ) (wantH : Bool) :
    evaluateError ops f (r, t1) wantH = evaluateError ops f (r, t2) wantH ∧
    (∀ M, (evaluateError ops f (r, t1) true).2 = some M →
      ∀ (i : Fin MeasDim) (j : Fin PoseDim),
        ((j : ℕ) < ops.rotationInterval.1 ∨
          ops.rotationInterval.1 + RotDim ≤ (j : ℕ)) → M i j = 0) := by
  rcases f with ⟨b, m, nM, bi, bps⟩
  refine ⟨rfl, fun M hM i j hj => ?_⟩
  have hM2 := hM
  rw [evaluateError_jacobian] at hM2
  cases Option.some.inj hM2
  simp only [Matrix.of_apply]
  rw [dif_neg (by omega)]

/-- C5: for a factor constructed with zero bias and no sensor mount, and a pose whose
rotation exactly explains the measurement (`measured = unrotate(rotation, localField)`),
`evaluateError` returns the zero vector. -/
theorem evaluateError_zero_residual {Rot : Type} {MeasDim PoseDim RotDim : ℕ}
    (ops : PoseOps Rot MeasDim PoseDim RotDim) (pose_key : ℕ)
    (measured : Fin MeasDim → ℝ) (scale : ℝ) (direction : Fin MeasDim → ℝ) (model : ℕ)
    (r : Rot) (t : Fin MeasDim → ℝ) (wantH : Bool)
    (hmeas : measured =
      ops.unrotate r (mkMagPoseFactor pose_key measured scale direction 0 model
        (none : Option (Pose Rot MeasDim))).nM_) :
    (evaluateError ops
      (mkMagPoseFactor pose_key measured scale direction 0 model none)
      (r, t) wantH).1 = 0 := by
  have h2 : (mkMagPoseFactor pose_key measured scale direction 0 model
      (none : Option (Pose Rot MeasDim))).nM_ = scale • normalized direction := rfl
  rw [h2] at hmeas
  show ops.unrotate r (scale • normalized direction) + 0 - measured = 0
  rw [hmeas]
  simp

/-- C6: the stored local field `nM_` equals `scale` times the (not necessarily
pre-normalized) direction normalized, computed once by the constructor; and no later
operation changes it — in particular `clone` is an exact copy of the factor's state. -/
theorem mk_localField {Rot : Type} {MeasDim : ℕ} (pose_key : ℕ)
    (measured : Fin MeasDim → ℝ) (scale : ℝ) (direction : Fin MeasDim → ℝ)
    (bias : Fin MeasDim → ℝ) (model : ℕ) (bps : Option (Pose Rot MeasDim)) :
    (mkMagPoseFactor pose_key measured scale direction bias model bps).nM_ =
      scale • normalized direction ∧
    (∀ g : MagPoseFactor Rot MeasDim, g.clone = NonlinearFactor.mag g) :=
  ⟨rfl, fun _ => rfl⟩

/-- C7: `equals` holds between two `MagPoseFactor`s iff the base factors agree (same key,
compatible noise model) and `measured_`, `nM_`, `bias_` each agree within the absolute
tolerance; the sensor mount plays no role in the comparison, so factors differing only in
their sensor mount compare equal (for a nonnegative tolerance). -/
theorem equals_spec {Rot : Type} {MeasDim : ℕ} (f e : MagPoseFactor Rot MeasDim)
    (s1 s2 : Option (Pose Rot MeasDim)) (tol : ℝ) :
    (MagPoseFactor.equals f (NonlinearFactor.mag e) tol ↔
      (baseEquals f.base e.base ∧
       equalWithAbsTol f.measured_ e.measured_ tol ∧
       equalWithAbsTol f.nM_ e.nM_ tol ∧
       equalWithAbsTol f.bias_ e.bias_ tol)) ∧
    (MagPoseFactor.equals { f with body_P_sensor_ := s1 }
        (NonlinearFactor.mag { e with body_P_sensor_ := s2 }) tol ↔
      MagPoseFactor.equals f (NonlinearFactor.mag e) tol) ∧
    (0 ≤ tol →
      MagPoseFactor.equals { f with body_P_sensor_ := s1 }
        (NonlinearFactor.mag { f with body_P_sensor_ := s2 }) tol) := by
  refine ⟨Iff.rfl, Iff.rfl, fun htol => ⟨⟨rfl, rfl⟩, ?_, ?_, ?_⟩⟩ <;>
    intro i <;> simpa using htol

/-- C8 counterexample: the claim that `equals(original, clone)` holds at any tolerance is
false at tolerance `-1`: componentwise agreement within a negative absolute tolerance
fails even between identical vectors. -/
theorem clone_equals_cex : ¬ MagPoseFactor.equals f0 (MagPoseFactor.clone f0) (-1) := by
  intro h
  have h1 := h.2.1 0
  rw [sub_self, abs_zero] at h1
  norm_num at h1

/-- C8 (amended): `clone` produces an exact copy of the factor's state (identical
`measured_`, `nM_`, `bias_`, sensor mount, key and noise model), and
`equals(original, clone)` holds at every nonnegative tolerance. -/
theorem clone_equals {Rot : Type} {MeasDim : ℕ} (f : MagPoseFactor Rot MeasDim)
    (tol : ℝ) (htol : 0 ≤ tol) :
    MagPoseFactor.clone f = NonlinearFactor.mag f ∧
    MagPoseFactor.equals f (MagPoseFactor.clone f) tol := by
  refine ⟨rfl, ⟨rfl, rfl⟩, ?_, ?_, ?_⟩ <;> intro i <;> simpa using htol

/-- C9: the residual returned by `evaluateError` is the same whether or not the optional
Jacobian slot is supplied. -/
theorem evaluateError_residual_jacobian_indep {Rot : Type} {MeasDim PoseDim RotDim : ℕ}
    (ops : PoseOps Rot MeasDim PoseDim RotDim) (f : MagPoseFactor Rot MeasDim)
    (nPb : Pose Rot MeasDim) (w1 w2 : Bool) :
    (evaluateError ops f nPb w1).1 = (evaluateError ops f nPb w2).1 := rfl

/-- C10: `equals` returns `false` on every argument that is not a `MagPoseFactor` of the
same pose type — the `dynamic_cast` guard makes the cross-type comparison total. -/
theorem equals_cross_type {Rot : Type} {MeasDim : ℕ} (f : MagPoseFactor Rot MeasDim)
    (o : ℕ) (tol : ℝ) : ¬ MagPoseFactor.equals f (NonlinearFactor.other o) tol :=
  fun h => h

/-! ### Witnesses on the concrete planar instance -/

/-- C3 witness: the rotation-choice theorem applied to the concrete factors `f1` (with a
90-degree sensor mount) and `f0` (without a mount) at the identity pose. -/
theorem evaluateError_rotation_choice_witness :
    (evaluateError pose2Ops f1 ((1, 0), ![0, 0]) true).1 =
      pose2Ops.unrotate (pose2Ops.comp (1, 0) (0, 1)) f1.nM_ + f1.bias_ - f1.measured_ ∧
    (evaluateError pose2Ops f0 ((1, 0), ![0, 0]) true).1 =
      pose2Ops.unrotate (1, 0) f0.nM_ + f0.bias_ - f0.measured_ :=
  ⟨(evaluateError_rotation_choice pose2Ops f1 ((1, 0), ![0, 0]) true
      ((0, 1), ![0, 0])).1 rfl,
   (evaluateError_rotation_choice pose2Ops f0 ((1, 0), ![0, 0]) true
      ((0, 1), ![0, 0])).2 rfl⟩

/-- C4 witness: on `f0`, moving the translation from `(0,0)` to `(5,6)` leaves the result
unchanged, and the translation column 0 of the returned Jacobian `M0` is zero. -/
theorem evaluateError_translation_inv_witness :
    evaluateError pose2Ops f0 ((1, 0), ![0, 0]) true =
      evaluateError pose2Ops f0 ((1, 0), ![5, 6]) true ∧
    M0 0 0 = 0 :=
  ⟨(evaluateError_translation_inv pose2Ops f0 (1, 0) ![0, 0] ![5, 6] true).1,
   (evaluateError_translation_inv pose2Ops f0 (1, 0) ![0, 0] ![5, 6] true).2
     M0 rfl 0 0 (Or.inl (by decide))⟩

/-- C5 witness: `f0`'s measurement is exactly the unrotated local field at the identity
rotation, and the residual there is the zero vector. -/
theorem evaluateError_zero_residual_witness :
    m0 = pose2Ops.unrotate (1, 0)
      (mkMagPoseFactor 7 m0 1 ![1, 0] 0 3 (none : Option (Pose (ℝ × ℝ) 2))).nM_ ∧
    (evaluateError pose2Ops (mkMagPoseFactor 7 m0 1 ![1, 0] 0 3 none)
      ((1, 0), ![0, 0]) true).1 = 0 :=
  ⟨rfl, evaluateError_zero_residual pose2Ops 7 m0 1 ![1, 0] 3 (1, 0) ![0, 0] true rfl⟩

/-- C7 witness: two copies of `f0` given different sensor mounts compare equal at
tolerance `1`. -/
theorem equals_spec_witness :
    (0 : ℝ) ≤ 1 ∧
    MagPoseFactor.equals { f0 with body_P_sensor_ := some ((0, 1), ![0, 0]) }
      (NonlinearFactor.mag { f0 with body_P_sensor_ := none }) 1 :=
  ⟨by norm_num,
   (equals_spec f0 f0 (some ((0, 1), ![0, 0])) none 1).2.2 (by norm_num)⟩

/-- C8 witness: the clone of `f0` is an exact copy and compares equal to `f0` at
tolerance `1`. -/
theorem clone_equals_witness :
    (0 : ℝ) ≤ 1 ∧
    (MagPoseFactor.clone f0 = NonlinearFactor.mag f0 ∧
     MagPoseFactor.equals f0 (MagPoseFactor.clone f0) 1) :=
  ⟨by norm_num, clone_equals f0 1 (by norm_num)⟩

/-- C10 witness: `f0` compares unequal to a non-`MagPoseFactor` argument. -/
theorem equals_cross_type_witness :
    ¬ MagPoseFactor.equals f0 (NonlinearFactor.other 0) 1 :=
  equals_cross_type f0 0 1
